import Mathlib

/-!
Verification of the single-file SQLite-clone reader (src/app/main.py).

The program is embedded shallowly:

* a database file is a byte sequence, modelled as a `List Nat` whose
  entries are byte values (< 256);
* a file cursor positioned at absolute offset `p` is modelled as
  `file.drop p`; Python's `file.read(n)`, which returns *up to* `n`
  bytes, is `take n` on the cursor (so reads at end of file return a
  short or empty byte string exactly as in Python);
* Python exceptions are modelled by `Except Err`;
* Python `str` values that the program manipulates (table names, SQL
  text, WHERE literals) are modelled as their byte sequences.  The
  program's `bytes.decode("utf-8")` steps are modelled as the identity
  on the byte sequence: on the ASCII inputs treated in the concrete
  theorems below this is exact.  Python's `str.lower`/`str.strip` are
  modelled by their ASCII restrictions `asciiLower`/`pyStrip`.
-/

/-- Exception kinds raised by the source: `EOFError` from `parse_varint`
(the spec's TruncatedInput), the various `ValueError`s, and the
exceptions Python itself raises on the slips modelled below
(`IndexError` for out-of-range `record[i]`, `AttributeError` for
`.decode`/`.find` on a non-`str`/non-`bytes` value, `TypeError` for
arithmetic on a non-int). -/
inductive Err where
  | eofError
  | valueError
  | tableNotFound
  | columnNotFound
  | malformedCreate
  | indexError
  | attributeError
  | typeError
deriving DecidableEq, Repr

deriving instance DecidableEq for Except

/-- Column values produced by `parse_record`.  The source produces
Python `None` (NULL), `int`, `float` and `bytes` values; BLOB and TEXT
columns both decode to plain `bytes`, so they share one constructor.
For serial type 7 the source computes `float.fromhex(file.read(8).hex())`:
it parses the 16-digit hex string as a hexadecimal *numeral*.  The
`float` constructor carries that numeral's exact integer value (Python
then rounds it to the nearest IEEE double; the rounding is
order-preserving and plays no role in the theorems below). -/
inductive Value where
  | null
  | int (i : Int)
  | float (numeral : Nat)
  | bytes (bs : List Nat)
deriving DecidableEq, Repr

/-- Python `file.read(n)` after `file.seek(pos)`: up to `n` bytes. -/
def readAt (file : List Nat) (pos n : Nat) : List Nat :=
  (file.drop pos).take n

/-- Python `int.from_bytes(bs, byteorder="big")`; on the empty byte
string it returns 0, as in Python. -/
def beNat (bs : List Nat) : Nat :=
  bs.foldl (fun a b => a * 256 + b) 0

/-- Python `int.from_bytes(bs, byteorder="big", signed=True)`. -/
def signedOfBytes (bs : List Nat) : Int :=
  if 2 ^ (8 * bs.length - 1) ≤ beNat bs then
    (beNat bs : Int) - 2 ^ (8 * bs.length)
  else
    (beNat bs : Int)

/-- The loop of `parse_varint`: `value |= (byte & 0x7F) << shift`,
`shift += 7`, stopping at the first byte whose bit 7 is clear, raising
`EOFError` when the source is exhausted first.  Note the first byte
read lands at shift 0, i.e. the first byte carries the *least*
significant 7-bit chunk. -/
def parseVarintAux : List Nat → Nat → Nat → Except Err (Nat × List Nat)
  | [], _, _ => .error .eofError
  | b :: rest, shift, acc =>
    let acc' := acc ||| ((b &&& 127) <<< shift)
    if b &&& 128 = 0 then .ok (acc', rest) else parseVarintAux rest (shift + 7) acc'

/-- Source `parse_varint(file)`: returns the decoded value and the
cursor past the consumed bytes. -/
def parse_varint (cur : List Nat) : Except Err (Nat × List Nat) :=
  parseVarintAux cur 0 0

/-- The `for i in range(5)` loop of `parse_record` reading serial-type
varints (generalised over the count). -/
def readVarints : Nat → List Nat → Except Err (List Nat × List Nat)
  | 0, cur => .ok ([], cur)
  | n + 1, cur => do
    let (v, cur1) ← parse_varint cur
    let (vs, cur2) ← readVarints n cur1
    .ok (v :: vs, cur2)

/-- One iteration of `parse_record`'s value loop: the if/elif chain on
`serial_type`.  Serial types 10 and 11 match no branch, so no value is
appended (`none`) and the cursor does not move.  For serial type 7 the
source runs `float.fromhex(file.read(8).hex())`: on a non-empty read
this yields the big-endian numeral of the bytes read (see `Value`); on
an empty read `float.fromhex("")` raises `ValueError`.  All the other
reads tolerate short reads exactly as `int.from_bytes`/slicing do. -/
def readColumn (serialType : Nat) (cur : List Nat) : Except Err (Option Value × List Nat) :=
  if serialType = 0 then .ok (some .null, cur)
  else if serialType = 1 then .ok (some (.int (signedOfBytes (cur.take 1))), cur.drop 1)
  else if serialType = 2 then .ok (some (.int (signedOfBytes (cur.take 2))), cur.drop 2)
  else if serialType = 3 then .ok (some (.int (signedOfBytes (cur.take 3))), cur.drop 3)
  else if serialType = 4 then .ok (some (.int (signedOfBytes (cur.take 4))), cur.drop 4)
  else if serialType = 5 then .ok (some (.int (signedOfBytes (cur.take 6))), cur.drop 6)
  else if serialType = 6 then .ok (some (.int (signedOfBytes (cur.take 8))), cur.drop 8)
  else if serialType = 7 then
    if cur.take 8 = [] then .error .valueError
    else .ok (some (.float (beNat (cur.take 8))), cur.drop 8)
  else if serialType = 8 then .ok (some (.int 0), cur)
  else if serialType = 9 then .ok (some (.int 1), cur)
  else if 12 ≤ serialType ∧ serialType % 2 = 0 then
    .ok (some (.bytes (cur.take ((serialType - 12) / 2))), cur.drop ((serialType - 12) / 2))
  else if 13 ≤ serialType ∧ serialType % 2 = 1 then
    .ok (some (.bytes (cur.take ((serialType - 13) / 2))), cur.drop ((serialType - 13) / 2))
  else .ok (none, cur)

/-- The value loop of `parse_record`, one `readColumn` per serial type
in header order. -/
def readValues : List Nat → List Nat → Except Err (List Value × List Nat)
  | [], cur => .ok ([], cur)
  | st :: rest, cur => do
    let (v, cur1) ← readColumn st cur
    let (vs, cur2) ← readValues rest cur1
    .ok (v.toList ++ vs, cur2)

/-- Source `parse_record(file)`: reads the declared header size (bound
but never used), then exactly 5 serial-type varints, then the column
values. -/
def parse_record (cur : List Nat) : Except Err (List Value × List Nat) := do
  let (_headerSize, cur1) ← parse_varint cur
  let (serialTypes, cur2) ← readVarints 5 cur1
  let (values, cur3) ← readValues serialTypes cur2
  .ok (values, cur3)

/-- Byte sequence of a string literal (code points; ASCII in all uses). -/
def strBytes (s : String) : List Nat :=
  s.data.map Char.toNat

/-- ASCII restriction of the whitespace set stripped by Python
`str.strip()`. -/
def isPySpace (b : Nat) : Bool :=
  b = 32 || b = 9 || b = 10 || b = 13 || b = 11 || b = 12

/-- Python `s.strip()` (ASCII restriction). -/
def pyStrip (bs : List Nat) : List Nat :=
  ((bs.dropWhile isPySpace).reverse.dropWhile isPySpace).reverse

/-- Python `s.strip("'")`: removes every leading and trailing quote. -/
def pyStripQuote (bs : List Nat) : List Nat :=
  ((bs.dropWhile (fun b => b == 39)).reverse.dropWhile (fun b => b == 39)).reverse

/-- ASCII restriction of Python `str.lower` on one code point. -/
def asciiLowerByte (b : Nat) : Nat :=
  if 65 ≤ b ∧ b ≤ 90 then b + 32 else b

/-- ASCII restriction of Python `str.lower`. -/
def asciiLower (bs : List Nat) : List Nat :=
  bs.map asciiLowerByte

/-- Python `s.find(c)` for a single character: first index or -1. -/
def pyFind (s : List Nat) (c : Nat) : Int :=
  match List.indexOf? c s with
  | some i => (i : Int)
  | none => -1

/-- Python `s.rfind(c)` for a single character: last index or -1. -/
def pyRFind (s : List Nat) (c : Nat) : Int :=
  match List.indexOf? c s.reverse with
  | some i => ((s.length - 1 - i : Nat) : Int)
  | none => -1

/-- Python `s[a:b]` for 0 ≤ a, b. -/
def pySlice (s : List Nat) (a b : Nat) : List Nat :=
  (s.drop a).take (b - a)

/-- Python `s.split()`: split on whitespace runs, dropping empties. -/
def pyWhitespaceSplit (bs : List Nat) : List (List Nat) :=
  (bs.splitOnP isPySpace).filter (fun x => !x.isEmpty)

/-- The enumerate loop of `find_column_index`: per definition, the
first whitespace token is the column name (`column_def.split()[0]`,
an `IndexError` on an empty definition); first match wins. -/
def fciLoop : List (List Nat) → List Nat → Nat → Except Err Nat
  | [], _, _ => .error .columnNotFound
  | d :: rest, col, i =>
    match pyWhitespaceSplit d with
    | [] => .error .indexError
    | tok :: _ => if tok = col then .ok i else fciLoop rest col (i + 1)

/-- Column definitions of `find_column_index`: the text between the
first parenthesis and the last one, split on commas, each piece
stripped; `ValueError` when the parentheses are missing or crossed. -/
def columnDefs (createTableSql : List Nat) : Except Err (List (List Nat)) :=
  let start := pyFind createTableSql 40
  let stop := pyRFind createTableSql 41
  if start = -1 ∨ stop = -1 ∨ start > stop then .error .malformedCreate
  else
    let columnsPart := pyStrip (pySlice createTableSql (start + 1).toNat stop.toNat)
    .ok ((List.splitOn 44 columnsPart).map pyStrip)

/-- Source `find_column_index(create_table_sql, column_name)`. -/
def find_column_index (createTableSql columnName : List Nat) : Except Err Nat := do
  let defs ← columnDefs createTableSql
  fciLoop defs columnName 0

/-- The schema cell-pointer array read by all three catalog scans:
cell count from absolute offset 103, 2-byte pointers from absolute
offset 108. -/
def schemaCellPointers (file : List Nat) : List Nat :=
  let n := beNat (readAt file 103 2)
  (List.range n).map (fun i => beNat (readAt file (108 + 2 * i) 2))

/-- The cell loop of `find_table_metadata`: seeks to absolute offset
`100 + cell_pointer`, skips two varints, decodes the record, and when
`len(record) > 2` compares the stored `tbl_name` — decoded, stripped
and lowered when it is `bytes` (a non-`bytes` value never equals the
query string) — against the already-lowered query.  On a match it
reads `record[4]` (an `IndexError` when the record is shorter) and
returns `(record[3], sql)`, decoding the sql only when it is bytes. -/
def findTableLoop (file : List Nat) (qname : List Nat) : List Nat → Except Err (Value × Value)
  | [] => .error .tableNotFound
  | p :: rest => do
    let cur0 := file.drop (100 + p)
    let (_, cur1) ← parse_varint cur0
    let (_, cur2) ← parse_varint cur1
    let (record, _) ← parse_record cur2
    if h2 : 2 < record.length then
      match record.get ⟨2, h2⟩ with
      | .bytes tblBytes =>
        if asciiLower (pyStrip tblBytes) = qname then
          if h4 : 4 < record.length then
            let sqlOut := match record.get ⟨4, h4⟩ with
              | .bytes sb => Value.bytes sb
              | v => v
            .ok (record.get ⟨3, by omega⟩, sqlOut)
          else .error .indexError
        else findTableLoop file qname rest
      | _ => findTableLoop file qname rest
    else findTableLoop file qname rest

/-- Source `find_table_metadata(file, table_name)`: lowers the query
(but does not strip it), then scans the schema cells at offsets
`100 + cell_pointer`. -/
def find_table_metadata (file : List Nat) (tableName : List Nat) : Except Err (Value × Value) :=
  findTableLoop file (asciiLower tableName) (schemaCellPointers file)

/-- The cell loop of `find_table_rootpage`: seeks to the *raw*
`cell_pointer` (no 100-byte adjustment), decodes the record, and runs
`record[2].decode("utf-8") == table_name` — an `IndexError` when the
record has at most 2 values, an `AttributeError` when `record[2]` is
not `bytes`, and an exact, case-sensitive comparison otherwise.  On a
match it returns `record[3]`. -/
def rootpageLoop (file : List Nat) (qname : List Nat) : List Nat → Except Err Value
  | [] => .error .tableNotFound
  | p :: rest => do
    let cur0 := file.drop p
    let (_, cur1) ← parse_varint cur0
    let (_, cur2) ← parse_varint cur1
    let (record, _) ← parse_record cur2
    if h2 : 2 < record.length then
      match record.get ⟨2, h2⟩ with
      | .bytes tblBytes =>
        if tblBytes = qname then
          if h3 : 3 < record.length then .ok (record.get ⟨3, h3⟩)
          else .error .indexError
        else rootpageLoop file qname rest
      | _ => .error .attributeError
    else .error .indexError

/-- Source `find_table_rootpage(file, table_name)` (the module-level
`database_file` it reads for the header is the same open file). -/
def find_table_rootpage (file : List Nat) (tableName : List Nat) : Except Err Value :=
  rootpageLoop file tableName (schemaCellPointers file)

/-- The cell loop of the `.tables` command: seeks to the raw
`cell_pointer`, decodes the record, and builds the row dictionary from
`record[0] .. record[4]` (an `IndexError` on a shorter record). -/
def tablesScanRows (file : List Nat) : List Nat → Except Err (List (Value × Value × Value × Value × Value))
  | [] => .ok []
  | p :: rest => do
    let cur0 := file.drop p
    let (_, cur1) ← parse_varint cur0
    let (_, cur2) ← parse_varint cur1
    let (record, _) ← parse_record cur2
    if h4 : 4 < record.length then
      let row := (record.get ⟨0, by omega⟩, record.get ⟨1, by omega⟩,
        record.get ⟨2, by omega⟩, record.get ⟨3, by omega⟩, record.get ⟨4, h4⟩)
      let rows ← tablesScanRows file rest
      .ok (row :: rows)
    else .error .indexError

/-- The final list comprehension of `.tables`:
`n["name"].decode("utf-8")` per row — an `AttributeError` when a name
is not `bytes`. -/
def decodeNames : List (Value × Value × Value × Value × Value) → Except Err (List (List Nat))
  | [] => .ok []
  | row :: rest =>
    match row.2.1 with
    | .bytes nb => do
      let names ← decodeNames rest
      .ok (nb :: names)
    | _ => .error .attributeError

/-- The `.tables` command: scan every schema cell (raw pointer seek)
and list the decoded `name` column of each row. -/
def listTables (file : List Nat) : Except Err (List (List Nat)) := do
  let rows ← tablesScanRows file (schemaCellPointers file)
  decodeNames rows

/-- Source `read_page_header(file, page_number)`: page offset
`(page_number - 1) * 4096`, cell count from header bytes 3..5, then
`num_cells` 2-byte pointers.  A page number below 1 makes the source
seek to a negative offset, which raises (modelled as `ValueError`). -/
def read_page_header (file : List Nat) (pageNumber : Int) : Except Err (Nat × List Nat) :=
  if pageNumber < 1 then .error .valueError
  else
    let off := ((pageNumber - 1) * 4096).toNat
    let pageHeader := readAt file off 8
    let numCells := beNat ((pageHeader.drop 3).take 2)
    .ok (numCells, (List.range numCells).map (fun i => beNat (readAt file (off + 8 + 2 * i) 2)))

/-- Source `parse_where_clause(where_clause)`: requires an equals sign,
splits at the first one, strips both sides and strips quotes from the
value. -/
def parse_where_clause (wc : List Nat) : Except Err (List Nat × List Nat) :=
  if wc.contains 61 then
    let before := wc.takeWhile (fun b => b != 61)
    let after := (wc.dropWhile (fun b => b != 61)).drop 1
    .ok (pyStrip before, pyStripQuote (pyStrip after))
  else .error .valueError

/-- Python `==` between a decoded record value and the WHERE literal
(a `str`).  `parse_record` only ever produces `None`, `int`, `float`
and `bytes` values, and in Python 3 none of these ever equals a `str`
(in particular `b"2" == "2"` is `False`), so the comparison is `False`
for every constructor. -/
def pyEqValueStr (v : Value) (_s : List Nat) : Bool :=
  match v with
  | .null => false
  | .int _ => false
  | .float _ => false
  | .bytes _ => false

/-- The per-row body of `extract_column_values`' loop, after the record
is decoded: skip the row when the predicate index is in range and the
value does not equal the literal; emit `record[column_index]` when that
index is in range (TEXT bytes being UTF-8 decoded for display, modelled
as identity); silently emit nothing otherwise. -/
def rowStep (record : List Value) (columnIndex : Nat) (whereInfo : Option (Nat × List Nat)) : Option Value :=
  let skip : Bool :=
    match whereInfo with
    | some (wi, wv) =>
      if h : wi < record.length then !(pyEqValueStr (record.get ⟨wi, h⟩) wv) else false
    | none => false
  if skip then none
  else if h : columnIndex < record.length then some (record.get ⟨columnIndex, h⟩)
  else none

/-- The cell loop of `extract_column_values`: seek to
`(root_page - 1) * 4096 + cell_pointer`, skip two varints, decode the
record, apply `rowStep`. -/
def extractLoop (file : List Nat) (rootPage : Int) (columnIndex : Nat)
    (whereInfo : Option (Nat × List Nat)) : List Nat → Except Err (List Value)
  | [] => .ok []
  | p :: rest => do
    let cur0 := file.drop (((rootPage - 1) * 4096).toNat + p)
    let (_, cur1) ← parse_varint cur0
    let (_, cur2) ← parse_varint cur1
    let (record, _) ← parse_record cur2
    let vs ← extractLoop file rootPage columnIndex whereInfo rest
    .ok ((rowStep record columnIndex whereInfo).toList ++ vs)

/-- Source `extract_column_values(file, root_page_number, column_index,
where_clause=None)`.  When a WHERE clause is given, the source calls
`find_table_metadata(file, table_name)` on the module-level
`table_name`, passed here explicitly as `tableNameGlobal`. -/
def extract_column_values (file : List Nat) (rootPage : Int) (columnIndex : Nat)
    (whereClause : Option (List Nat)) (tableNameGlobal : List Nat) : Except Err (List Value) := do
  let (_numCells, cellPointers) ← read_page_header file rootPage
  match whereClause with
  | none => extractLoop file rootPage columnIndex none cellPointers
  | some wc => do
    let (wcol, wval) ← parse_where_clause wc
    let (_, createTableSql) ← find_table_metadata file tableNameGlobal
    let sqlBytes ← match createTableSql with
      | .bytes sb => Except.ok sb
      | _ => Except.error Err.attributeError
    let wi ← find_column_index sqlBytes wcol
    extractLoop file rootPage columnIndex (some (wi, wval)) cellPointers

/-- The SELECT branch of the dispatcher, given the components that
`extract_query_components` returns.  It resolves the table and the
projection column and then runs
`extract_column_values(database_file, root_page, column_index)` —
the parsed `where_clause` is *not* passed on (default `None`), exactly
as in the source.  A non-`bytes` creation statement would fail in
`find_column_index` (`AttributeError`), a non-`int` root page in the
page arithmetic (`TypeError`). -/
def selectCommand (file : List Nat) (columnName tableName : List Nat)
    (_whereClause : Option (List Nat)) : Except Err (List Value) := do
  let (rootPage, createTableSql) ← find_table_metadata file tableName
  let sqlBytes ← match createTableSql with
    | .bytes sb => Except.ok sb
    | _ => Except.error Err.attributeError
  let columnIndex ← find_column_index sqlBytes columnName
  let rootInt ← match rootPage with
    | .int n => Except.ok n
    | _ => Except.error Err.typeError
  extract_column_values file rootInt columnIndex none tableName

/-! ### Reference definitions written from the specification's words
(the source only decodes varints; the encoders below express the two
candidate byte orders the spec and claims talk about), and an exact
reading of an IEEE-754 double bit pattern used to state what serial
type 7 should produce. -/

/-- Base-128 digits of `v`, least significant first (never empty). -/
def digits128 (v : Nat) : List Nat :=
  if v < 128 then [v] else (v % 128) :: digits128 (v / 128)
decreasing_by exact Nat.div_lt_self (by omega) (by omega)

/-- The little-endian-chunk base-128 encoding: the first byte carries
the least significant 7-bit chunk, continuation bit set on all but the
last byte. -/
def encodeLE (v : Nat) : List Nat :=
  if v < 128 then [v] else (v % 128 + 128) :: encodeLE (v / 128)
decreasing_by exact Nat.div_lt_self (by omega) (by omega)

/-- The big-endian-chunk base-128 encoding described by the claim and
the spec ("first encoded byte carrying the most significant 7-bit
chunk", continuation bit set on all but the last byte) — the byte order
of the real file format. -/
def encodeBE (v : Nat) : List Nat :=
  ((digits128 v).tail.reverse.map (fun d => d + 128)) ++ [(digits128 v).headD 0]

/-- Exact rational value of the finite IEEE-754 double whose 64-bit
pattern is `bits` (what the spec says serial type 7 should denote; not
meaningful for the infinity/NaN exponent 2047, which no theorem below
uses). -/
def ieeeOfBits (bits : Nat) : ℚ :=
  let sign : Nat := bits / 2 ^ 63 % 2
  let expo : Nat := bits / 2 ^ 52 % 2 ^ 11
  let frac : Nat := bits % 2 ^ 52
  let mag : ℚ :=
    if expo = 0 then (frac : ℚ) * (2 : ℚ) ^ (-(1074 : Int))
    else ((2 : ℚ) ^ (52 : Nat) + (frac : ℚ)) * (2 : ℚ) ^ ((expo : Int) - 1075)
  if sign = 1 then -mag else mag

/-! ### Concrete database files

`fileF` realises the spec's end-to-end scenario B: one schema row
`(type="table", name="apples", tbl_name="apples", rootpage=2,
sql="CREATE TABLE apples (id text, name text)")` reachable through the
page-1 pointer array (cell count 1 at offset 103, pointer 30 at offset
108, cell bytes at offset 100 + 30 = 130), and a root page 2 (file
offset 4096) holding 3 cells whose rows have id `"1","2","3"` and name
`"x","y","z"` as TEXT, padded with three NULL columns so that the
fixed-five-column record decoder reads them cleanly.

`fileF2` varies the schema cell: the stored `tbl_name` is `" Apples "`
(whitespace and upper case), `sql = "CREATE TABLE t (id text)"`.

`fileG` duplicates one schema cell at offsets 130 and 230 with the
pointer 130, so the cell bytes found at the raw pointer and at
100 + pointer coincide. -/

def sqlApples : List Nat := strBytes "CREATE TABLE apples (id text, name text)"

def schemaCellF : List Nat :=
  [80, 1, 7, 23, 25, 25, 1, 93] ++ strBytes "table" ++ strBytes "apples"
    ++ strBytes "apples" ++ [2] ++ sqlApples

def tableCellF (id nm : Nat) : List Nat := [9, 1, 6, 15, 15, 0, 0, 0, id, nm]

def fileF : List Nat :=
  List.replicate 103 0 ++ [0, 1] ++ List.replicate 3 0 ++ [0, 30] ++ List.replicate 20 0
    ++ schemaCellF ++ List.replicate 3900 0
    ++ [0, 0, 0, 0, 3, 0, 0, 0] ++ [0, 20, 0, 40, 0, 60] ++ List.replicate 6 0
    ++ tableCellF 49 120 ++ List.replicate 10 0 ++ tableCellF 50 121
    ++ List.replicate 10 0 ++ tableCellF 51 122

def sqlT : List Nat := strBytes "CREATE TABLE t (id text)"

def schemaCellG : List Nat :=
  [81, 1, 6, 23, 15, 15, 1, 61] ++ strBytes "table" ++ strBytes "t" ++ strBytes "t" ++ [2] ++ sqlT

def fileG : List Nat :=
  List.replicate 103 0 ++ [0, 1] ++ List.replicate 3 0 ++ [0, 130] ++ List.replicate 20 0
    ++ schemaCellG ++ List.replicate 60 0 ++ schemaCellG

def schemaCellF2 : List Nat :=
  [70, 1, 6, 23, 25, 29, 1, 61] ++ strBytes "table" ++ strBytes "apples"
    ++ strBytes " Apples " ++ [2] ++ sqlT

def fileF2 : List Nat :=
  List.replicate 103 0 ++ [0, 1] ++ List.replicate 3 0 ++ [0, 30] ++ List.replicate 20 0 ++ schemaCellF2

set_option maxRecDepth 40000

/-! ### Helper lemmas -/

theorem lor_shiftLeft_eq_add {s : Nat} (a b : Nat) (h : a < 2 ^ s) :
    a ||| (b <<< s) = a + b * 2 ^ s := by
  apply Nat.eq_of_testBit_eq
  intro i
  rw [Nat.testBit_lor, Nat.testBit_shiftLeft]
  rcases Nat.lt_or_ge i s with hi | hi
  · have hns : ¬ (s ≤ i) := by omega
    have hsplit : 2 ^ s = 2 ^ i * 2 ^ (s - i) := by
      rw [← pow_add]
      congr 1
      omega
    have hdvd : (a + b * 2 ^ s) / 2 ^ i = a / 2 ^ i + b * 2 ^ (s - i) := by
      rw [hsplit, show b * (2 ^ i * 2 ^ (s - i)) = 2 ^ i * (b * 2 ^ (s - i)) by ring]
      exact Nat.add_mul_div_left a _ (Nat.pos_pow_of_pos i (by norm_num))
    have harith : (a + b * 2 ^ s) / 2 ^ i % 2 = a / 2 ^ i % 2 := by
      rw [hdvd]
      have hx : b * 2 ^ (s - i) = b * 2 ^ (s - i - 1) * 2 := by
        rw [mul_assoc, ← pow_succ]
        congr 2
        omega
      rw [hx, Nat.add_mul_mod_self_right]
    simp [Nat.testBit_to_div_mod, hns, harith]
  · have hsplit : 2 ^ i = 2 ^ s * 2 ^ (i - s) := by
      rw [← pow_add]
      congr 1
      omega
    have hazero : a / 2 ^ i = 0 :=
      Nat.div_eq_of_lt (lt_of_lt_of_le h (Nat.pow_le_pow_right (by norm_num) hi))
    have harith : (a + b * 2 ^ s) / 2 ^ i = b / 2 ^ (i - s) := by
      rw [hsplit, ← Nat.div_div_eq_div_mul]
      congr 1
      rw [show b * 2 ^ s = 2 ^ s * b by ring]
      rw [Nat.add_mul_div_left a _ (Nat.pos_pow_of_pos s (by norm_num))]
      rw [Nat.div_eq_of_lt h, Nat.zero_add]
    simp [Nat.testBit_to_div_mod, hi, harith, hazero]

theorem and127_of_lt {v : Nat} (h : v < 128) : v &&& 127 = v := by
  have h7 : (127 : Nat) = 2 ^ 7 - 1 := by norm_num
  rw [h7, Nat.and_pow_two_sub_one_eq_mod]
  omega

theorem and128_eq_zero {v : Nat} (h : v < 128) : v &&& 128 = 0 := by
  have h7 : (128 : Nat) = 2 ^ 7 := by norm_num
  rw [h7, Nat.and_two_pow]
  have ht : v.testBit 7 = false := Nat.testBit_lt_two_pow (by omega)
  simp [ht]

theorem cont_and127 (v : Nat) : (v % 128 + 128) &&& 127 = v % 128 := by
  have h7 : (127 : Nat) = 2 ^ 7 - 1 := by norm_num
  rw [h7, Nat.and_pow_two_sub_one_eq_mod]
  have h8 : (2 : Nat) ^ 7 = 128 := by norm_num
  rw [h8, Nat.add_mod_right]
  omega

theorem cont_and128 (v : Nat) : (v % 128 + 128) &&& 128 = 128 := by
  have h7 : (128 : Nat) = 2 ^ 7 := by norm_num
  rw [h7, Nat.and_two_pow]
  have ht : (v % 128 + 128).testBit 7 = true := by
    rw [Nat.testBit_to_div_mod]
    have hlt : v % 128 < 128 := Nat.mod_lt _ (by norm_num)
    have hdiv : (v % 128 + 128) / 2 ^ 7 = 1 := by
      have h8 : (2 : Nat) ^ 7 = 128 := by norm_num
      rw [h8]
      omega
    simp [hdiv]
  simp [ht]

theorem parseVarintAux_encodeLE :
    ∀ (v : Nat), ∀ (rest : List Nat) (shift acc : Nat), acc < 2 ^ shift →
      parseVarintAux (encodeLE v ++ rest) shift acc = .ok (acc + v * 2 ^ shift, rest) := by
  intro v
  induction v using Nat.strong_induction_on with
  | _ v ih =>
    intro rest shift acc hacc
    rw [encodeLE]
    by_cases h : v < 128
    · rw [if_pos h]
      simp only [List.cons_append, List.nil_append, parseVarintAux]
      rw [and127_of_lt h, and128_eq_zero h, lor_shiftLeft_eq_add _ _ hacc]
      simp
    · rw [if_neg h]
      simp only [List.cons_append, parseVarintAux]
      rw [cont_and127 v, cont_and128 v, lor_shiftLeft_eq_add _ _ hacc]
      rw [if_neg (by norm_num : ¬ (128 : Nat) = 0)]
      have hlt : v / 128 < v := Nat.div_lt_self (by omega) (by omega)
      have hmod : v % 128 < 128 := Nat.mod_lt _ (by norm_num)
      have hbound : acc + v % 128 * 2 ^ shift < 2 ^ (shift + 7) := by
        have hpow : (2 : Nat) ^ (shift + 7) = 128 * 2 ^ shift := by
          rw [pow_add]
          ring
        rw [hpow]
        have hm := Nat.mul_le_mul_right (2 ^ shift) (show v % 128 ≤ 127 by omega)
        omega
      show parseVarintAux (encodeLE (v / 128) ++ rest) (shift + 7) (acc + v % 128 * 2 ^ shift) = _
      rw [ih (v / 128) hlt rest (shift + 7) _ hbound]
      have hfin : acc + v % 128 * 2 ^ shift + v / 128 * 2 ^ (shift + 7) = acc + v * 2 ^ shift := by
        have hsum : v % 128 + 128 * (v / 128) = v := Nat.mod_add_div v 128
        have hpow : (2 : Nat) ^ (shift + 7) = 2 ^ shift * 128 := by
          rw [pow_add]
          ring
        calc acc + v % 128 * 2 ^ shift + v / 128 * 2 ^ (shift + 7)
            = acc + (v % 128 + 128 * (v / 128)) * 2 ^ shift := by rw [hpow]; ring
          _ = acc + v * 2 ^ shift := by rw [hsum]
      rw [hfin]

theorem parseVarintAux_error_iff :
    ∀ (bs : List Nat) (shift acc : Nat),
      (parseVarintAux bs shift acc = .error .eofError ↔ ∀ b ∈ bs, b &&& 128 ≠ 0) := by
  intro bs
  induction bs with
  | nil =>
    intro shift acc
    simp [parseVarintAux]
  | cons b rest ih =>
    intro shift acc
    simp only [parseVarintAux]
    by_cases hb : b &&& 128 = 0
    · rw [if_pos hb]
      simp [hb]
    · rw [if_neg hb]
      rw [ih]
      simp [hb]

theorem parseVarintAux_error_only_eof :
    ∀ (bs : List Nat) (shift acc : Nat) (e : Err),
      parseVarintAux bs shift acc = .error e → e = .eofError := by
  intro bs
  induction bs with
  | nil =>
    intro s a e h
    simp [parseVarintAux] at h
    exact h.symm
  | cons b rest ih =>
    intro s a e h
    simp only [parseVarintAux] at h
    by_cases hb : b &&& 128 = 0
    · rw [if_pos hb] at h
      simp at h
    · rw [if_neg hb] at h
      exact ih _ _ _ h

theorem encodeBE_at_128 : encodeBE 128 = [129, 0] := by
  rw [encodeBE]
  rw [digits128, if_neg (by norm_num : ¬ (128 : Nat) < 128)]
  norm_num
  rw [digits128, if_pos (by norm_num : (1 : Nat) < 128)]
  simp

theorem except_bind_eq_ok {e a b : Type} {x : Except e a} {f : a → Except e b} {r : b} :
    x >>= f = .ok r ↔ ∃ v, x = .ok v ∧ f v = .ok r := by
  cases x with
  | error err => simp [show (Except.error err >>= f) = (Except.error err : Except e b) from rfl]
  | ok v => simp [show (Except.ok v >>= f) = f v from rfl]

theorem readColumn_ok_of_ne7 (st : Nat) (cur : List Nat) (h : st ≠ 7) :
    ∃ r, readColumn st cur = .ok r := by
  unfold readColumn
  by_cases h0 : st = 0
  · rw [if_pos h0]
    exact ⟨_, rfl⟩
  rw [if_neg h0]
  by_cases h1 : st = 1
  · rw [if_pos h1]
    exact ⟨_, rfl⟩
  rw [if_neg h1]
  by_cases h2 : st = 2
  · rw [if_pos h2]
    exact ⟨_, rfl⟩
  rw [if_neg h2]
  by_cases h3 : st = 3
  · rw [if_pos h3]
    exact ⟨_, rfl⟩
  rw [if_neg h3]
  by_cases h4 : st = 4
  · rw [if_pos h4]
    exact ⟨_, rfl⟩
  rw [if_neg h4]
  by_cases h5 : st = 5
  · rw [if_pos h5]
    exact ⟨_, rfl⟩
  rw [if_neg h5]
  by_cases h6 : st = 6
  · rw [if_pos h6]
    exact ⟨_, rfl⟩
  rw [if_neg h6]
  rw [if_neg h]
  by_cases h8 : st = 8
  · rw [if_pos h8]
    exact ⟨_, rfl⟩
  rw [if_neg h8]
  by_cases h9 : st = 9
  · rw [if_pos h9]
    exact ⟨_, rfl⟩
  rw [if_neg h9]
  by_cases hb : 12 ≤ st ∧ st % 2 = 0
  · rw [if_pos hb]
    exact ⟨_, rfl⟩
  rw [if_neg hb]
  by_cases ht : 13 ≤ st ∧ st % 2 = 1
  · rw [if_pos ht]
    exact ⟨_, rfl⟩
  rw [if_neg ht]
  exact ⟨_, rfl⟩

theorem readColumn_error_iff (st : Nat) (cur : List Nat) (er : Err) :
    readColumn st cur = .error er ↔ st = 7 ∧ cur = [] ∧ er = .valueError := by
  by_cases h7 : st = 7
  · subst h7
    unfold readColumn
    norm_num
    by_cases hc : cur = []
    · rw [if_pos hc]
      simp [hc, eq_comm]
    · rw [if_neg hc]
      simp [hc]
  · obtain ⟨r, hr⟩ := readColumn_ok_of_ne7 st cur h7
    rw [hr]
    simp [h7]

theorem readColumn_skips_10_11 (cur : List Nat) :
    readColumn 10 cur = .ok (none, cur) ∧ readColumn 11 cur = .ok (none, cur) := by
  constructor <;> norm_num [readColumn]

theorem readVarints_length (n : Nat) :
    ∀ (cur sts cur' : List Nat), readVarints n cur = .ok (sts, cur') → sts.length = n := by
  induction n with
  | zero =>
    intro cur sts cur' h
    simp [readVarints] at h
    rw [h.1]
    rfl
  | succ n ih =>
    intro cur sts cur' h
    simp only [readVarints] at h
    rw [except_bind_eq_ok] at h
    obtain ⟨⟨v, cur1⟩, hp, h⟩ := h
    simp only at h
    rw [except_bind_eq_ok] at h
    obtain ⟨⟨vs, cur2⟩, hr, h⟩ := h
    simp only [Except.ok.injEq, Prod.mk.injEq] at h
    rw [← h.1]
    simp [ih cur1 vs cur2 hr]

theorem readColumn_some (st : Nat) (cur : List Nat) (ov : Option Value) (cur' : List Nat)
    (hok : readColumn st cur = .ok (ov, cur')) (h10 : st ≠ 10) (h11 : st ≠ 11) :
    ∃ v, ov = some v := by
  unfold readColumn at hok
  by_cases h0 : st = 0
  · rw [if_pos h0] at hok
    simp only [Except.ok.injEq, Prod.mk.injEq] at hok
    exact ⟨_, hok.1.symm⟩
  rw [if_neg h0] at hok
  by_cases h1 : st = 1
  · rw [if_pos h1] at hok
    simp only [Except.ok.injEq, Prod.mk.injEq] at hok
    exact ⟨_, hok.1.symm⟩
  rw [if_neg h1] at hok
  by_cases h2 : st = 2
  · rw [if_pos h2] at hok
    simp only [Except.ok.injEq, Prod.mk.injEq] at hok
    exact ⟨_, hok.1.symm⟩
  rw [if_neg h2] at hok
  by_cases h3 : st = 3
  · rw [if_pos h3] at hok
    simp only [Except.ok.injEq, Prod.mk.injEq] at hok
    exact ⟨_, hok.1.symm⟩
  rw [if_neg h3] at hok
  by_cases h4 : st = 4
  · rw [if_pos h4] at hok
    simp only [Except.ok.injEq, Prod.mk.injEq] at hok
    exact ⟨_, hok.1.symm⟩
  rw [if_neg h4] at hok
  by_cases h5 : st = 5
  · rw [if_pos h5] at hok
    simp only [Except.ok.injEq, Prod.mk.injEq] at hok
    exact ⟨_, hok.1.symm⟩
  rw [if_neg h5] at hok
  by_cases h6 : st = 6
  · rw [if_pos h6] at hok
    simp only [Except.ok.injEq, Prod.mk.injEq] at hok
    exact ⟨_, hok.1.symm⟩
  rw [if_neg h6] at hok
  by_cases h7 : st = 7
  · rw [if_pos h7] at hok
    by_cases hc : cur.take 8 = []
    · rw [if_pos hc] at hok
      simp at hok
    · rw [if_neg hc] at hok
      simp only [Except.ok.injEq, Prod.mk.injEq] at hok
      exact ⟨_, hok.1.symm⟩
  rw [if_neg h7] at hok
  by_cases h8 : st = 8
  · rw [if_pos h8] at hok
    simp only [Except.ok.injEq, Prod.mk.injEq] at hok
    exact ⟨_, hok.1.symm⟩
  rw [if_neg h8] at hok
  by_cases h9 : st = 9
  · rw [if_pos h9] at hok
    simp only [Except.ok.injEq, Prod.mk.injEq] at hok
    exact ⟨_, hok.1.symm⟩
  rw [if_neg h9] at hok
  by_cases hb : 12 ≤ st ∧ st % 2 = 0
  · rw [if_pos hb] at hok
    simp only [Except.ok.injEq, Prod.mk.injEq] at hok
    exact ⟨_, hok.1.symm⟩
  rw [if_neg hb] at hok
  by_cases ht : 13 ≤ st ∧ st % 2 = 1
  · rw [if_pos ht] at hok
    simp only [Except.ok.injEq, Prod.mk.injEq] at hok
    exact ⟨_, hok.1.symm⟩
  rw [if_neg ht] at hok
  exfalso
  omega

theorem readValues_length (sts : List Nat) :
    ∀ (cur : List Nat) (vals : List Value) (cur' : List Nat),
      (∀ st ∈ sts, st ≠ 10 ∧ st ≠ 11) → readValues sts cur = .ok (vals, cur') →
      vals.length = sts.length := by
  induction sts with
  | nil =>
    intro cur vals cur' _ h
    simp [readValues] at h
    rw [h.1]
    rfl
  | cons st rest ih =>
    intro cur vals cur' hall h
    simp only [readValues] at h
    rw [except_bind_eq_ok] at h
    obtain ⟨⟨ov, cur1⟩, hcol, h⟩ := h
    simp only at h
    rw [except_bind_eq_ok] at h
    obtain ⟨⟨vs, cur2⟩, hrest, h⟩ := h
    simp only [Except.ok.injEq, Prod.mk.injEq] at h
    obtain ⟨v, hv⟩ := readColumn_some st cur ov cur1 hcol (hall st (by simp)).1 (hall st (by simp)).2
    rw [← h.1, hv]
    have hlen := ih cur1 vs cur2 (fun s hs => hall s (by simp [hs])) hrest
    simp [hlen]

theorem parse_record_header_indep (hb1 hb2 : Nat) (rest : List Nat)
    (h1 : hb1 &&& 128 = 0) (h2 : hb2 &&& 128 = 0) :
    parse_record (hb1 :: rest) = parse_record (hb2 :: rest) := by
  have e1 : parse_varint (hb1 :: rest) = .ok (0 ||| ((hb1 &&& 127) <<< 0), rest) := by
    unfold parse_varint parseVarintAux
    rw [if_pos h1]
  have e2 : parse_varint (hb2 :: rest) = .ok (0 ||| ((hb2 &&& 127) <<< 0), rest) := by
    unfold parse_varint parseVarintAux
    rw [if_pos h2]
  unfold parse_record
  rw [e1, e2]
  rfl

theorem rowStep_short_none (record : List Value) (ci : Nat) (w : Option (Nat × List Nat))
    (h : record.length ≤ ci) : rowStep record ci w = none := by
  have hci : ¬ ci < record.length := by omega
  simp only [rowStep]
  split <;> simp [hci]

theorem rowStep_short_pred (record : List Value) (ci wi : Nat) (wv : List Nat)
    (h : record.length ≤ wi) : rowStep record ci (some (wi, wv)) = rowStep record ci none := by
  have hwi : ¬ wi < record.length := by omega
  simp [rowStep, hwi]

theorem asciiLowerByte_idem (b : Nat) : asciiLowerByte (asciiLowerByte b) = asciiLowerByte b := by
  unfold asciiLowerByte
  split_ifs <;> omega

theorem asciiLower_idem (bs : List Nat) : asciiLower (asciiLower bs) = asciiLower bs := by
  unfold asciiLower
  rw [List.map_map]
  apply List.map_congr_left
  intro a _
  exact asciiLowerByte_idem a

theorem find_table_metadata_lower (file q : List Nat) :
    find_table_metadata file (asciiLower q) = find_table_metadata file q := by
  unfold find_table_metadata
  rw [asciiLower_idem]

theorem ieeeOfBits_at_one : ieeeOfBits 4607182418800017408 = 1 := by
  have hs : (4607182418800017408 : Nat) / 2 ^ 63 % 2 = 0 := by norm_num
  have he : (4607182418800017408 : Nat) / 2 ^ 52 % 2 ^ 11 = 1023 := by norm_num
  have hf : (4607182418800017408 : Nat) % 2 ^ 52 = 0 := by norm_num
  simp only [ieeeOfBits, hs, he, hf]
  norm_num

/-! ### Claim theorems -/

/-- C2 counterexample: decoding the format's standard most-significant-
chunk-first base-128 encoding does not round-trip.  The encoding of 128
is the byte pair (0x81, 0x00), and `parse_varint` decodes it to 1, not
128, because its accumulator shifts the *first* byte into the least
significant position. -/
theorem varint_msb_first_counterexample :
    encodeBE 128 = [129, 0] ∧ parse_varint [129, 0] = .ok (1, []) ∧ (1 : Nat) ≠ 128 := by
  refine ⟨encodeBE_at_128, by decide, by decide⟩

/-- C2 amended: `parse_varint` inverts the *least*-significant-chunk-
first base-128 encoding: for every value, decoding its little-endian
encoding followed by any suffix yields exactly that value with exactly
the encoding's bytes consumed (the returned cursor is the untouched
suffix). -/
theorem varint_le_roundtrip :
    ∀ (v : Nat) (rest : List Nat), parse_varint (encodeLE v ++ rest) = .ok (v, rest) := by
  intro v rest
  unfold parse_varint
  rw [parseVarintAux_encodeLE v rest 0 0 (by norm_num)]
  simp

/-- C8: varint decoding terminates with a complete classification:
it fails (with `EOFError`, the spec's TruncatedInput) exactly when
every available byte has its continuation bit set — including the
empty input and any input whose last byte still has bit 7 set — and
succeeds exactly when some byte with a clear continuation bit is
present. -/
theorem varint_truncation_characterization :
    ∀ bs : List Nat,
      (parse_varint bs = .error .eofError ↔ ∀ b ∈ bs, b &&& 128 ≠ 0)
      ∧ ((∃ v rest, parse_varint bs = .ok (v, rest)) ↔ ∃ b ∈ bs, b &&& 128 = 0) := by
  intro bs
  constructor
  · exact parseVarintAux_error_iff bs 0 0
  · constructor
    · rintro ⟨v, rest, hok⟩
      by_contra hno
      push_neg at hno
      have herr : parse_varint bs = .error .eofError :=
        (parseVarintAux_error_iff bs 0 0).mpr hno
      rw [hok] at herr
      simp at herr
    · intro hex
      cases hres : parse_varint bs with
      | ok p => exact ⟨p.1, p.2, by simp [hres]⟩
      | error e =>
        have he := parseVarintAux_error_only_eof bs 0 0 e hres
        subst he
        have hall := (parseVarintAux_error_iff bs 0 0).mp hres
        obtain ⟨b, hmem, hb⟩ := hex
        exact absurd hb (hall b hmem)

/-- C3: evaluation of every serial-type class.  Codes 0..6, 8, 9 and
the BLOB/TEXT codes behave as documented (NULL, signed big-endian
integers of widths 1,2,3,4,6,8, constants 0 and 1, payload lengths
(code-12)/2 and (code-13)/2).  Code 7, however, does *not* produce the
IEEE-754 double whose bit pattern is the next 8 bytes: on the bytes
0x3FF0000000000000 (the bit pattern of 1.0, as `ieeeOfBits` confirms)
the code produces the hexadecimal-numeral reading
4607182418800017408 — `float.fromhex` applied to the bytes' hex string
— which is not 1. -/
theorem serial_type_widths_and_float_eval :
    ieeeOfBits 4607182418800017408 = 1
    ∧ (4607182418800017408 : ℚ) ≠ 1
    ∧ (readColumn 0 [170] = .ok (some Value.null, [170])
      ∧ readColumn 1 [255, 9] = .ok (some (Value.int (-1)), [9])
      ∧ readColumn 2 [1, 0, 9] = .ok (some (Value.int 256), [9])
      ∧ readColumn 3 [255, 255, 255, 9] = .ok (some (Value.int (-1)), [9])
      ∧ readColumn 4 [0, 0, 1, 0, 9] = .ok (some (Value.int 256), [9])
      ∧ readColumn 5 [255, 255, 255, 255, 255, 255, 9] = .ok (some (Value.int (-1)), [9])
      ∧ readColumn 6 [0, 0, 0, 0, 0, 0, 1, 0, 9] = .ok (some (Value.int 256), [9])
      ∧ readColumn 8 [9] = .ok (some (Value.int 0), [9])
      ∧ readColumn 9 [9] = .ok (some (Value.int 1), [9])
      ∧ readColumn 12 [9] = .ok (some (Value.bytes []), [9])
      ∧ readColumn 14 [55, 9] = .ok (some (Value.bytes [55]), [9])
      ∧ readColumn 13 [9] = .ok (some (Value.bytes []), [9])
      ∧ readColumn 15 [55, 9] = .ok (some (Value.bytes [55]), [9])
      ∧ readColumn 17 [55, 56, 9] = .ok (some (Value.bytes [55, 56]), [9])
      ∧ readColumn 7 [63, 240, 0, 0, 0, 0, 0, 0]
          = .ok (some (Value.float 4607182418800017408), [])
      ∧ beNat [63, 240, 0, 0, 0, 0, 0, 0] = 4607182418800017408) := by
  refine ⟨ieeeOfBits_at_one, by norm_num, ?_⟩
  and_intros <;> decide

/-- C4 counterexample: a record whose serial types are (10, 0, 0, 0, 0)
decodes without any error to a 4-value record — code 10 is silently
skipped rather than raising UnsupportedSerialType — and a 4-byte
integer column whose remaining input has only 2 bytes decodes to the
integer of those 2 bytes (258) instead of raising TruncatedInput. -/
theorem unsupported_serial_type_counterexample :
    parse_record [7, 10, 0, 0, 0, 0] = .ok ([Value.null, Value.null, Value.null, Value.null], [])
    ∧ readColumn 4 [1, 2] = .ok (some (Value.int 258), []) := by
  constructor <;> decide

/-- C4 amended: the value decoder never raises on serial types 10 and
11 (it appends no value and leaves the cursor in place), truncated
column bytes never raise (the value is decoded from whatever bytes are
available), and the one and only per-column failure is serial type 7 at
end of input, where Python's `float.fromhex("")` raises `ValueError`. -/
theorem readColumn_failure_characterization :
    ∀ (st : Nat) (cur : List Nat) (er : Err),
      (readColumn st cur = .error er ↔ st = 7 ∧ cur = [] ∧ er = .valueError)
      ∧ readColumn 10 cur = .ok (none, cur)
      ∧ readColumn 11 cur = .ok (none, cur) := by
  intro st cur er
  exact ⟨readColumn_error_iff st cur er, (readColumn_skips_10_11 cur).1,
    (readColumn_skips_10_11 cur).2⟩

/-- C5: the record decoder reads exactly 5 serial-type varints whatever
the declared header length says (first conjunct); the declared header
length value is read but never used — two records differing only in
that byte decode identically (second conjunct); and one value is read
per serial-type code in header order, so for supported codes the value
count equals the code count (third conjunct; codes 10 and 11 are the
exception established under C4). -/
theorem record_reads_exactly_five :
    (∀ (cur sts cur' : List Nat), readVarints 5 cur = .ok (sts, cur') → sts.length = 5)
    ∧ (∀ (hb1 hb2 : Nat) (rest : List Nat), hb1 &&& 128 = 0 → hb2 &&& 128 = 0 →
        parse_record (hb1 :: rest) = parse_record (hb2 :: rest))
    ∧ (∀ (sts cur : List Nat) (vals : List Value) (cur' : List Nat),
        (∀ st ∈ sts, st ≠ 10 ∧ st ≠ 11) → readValues sts cur = .ok (vals, cur') →
        vals.length = sts.length) := by
  exact ⟨fun cur sts cur' h => readVarints_length 5 cur sts cur' h,
    parse_record_header_indep,
    fun sts cur vals cur' hall h => readValues_length sts cur vals cur' hall h⟩

/-- C5 witness: the theorem instantiated on concrete inputs. -/
theorem record_reads_exactly_five_witness :
    ([2, 3, 4, 5, 6] : List Nat).length = 5
    ∧ parse_record ((0 : Nat) :: [1, 1, 1, 1, 1]) = parse_record ((9 : Nat) :: [1, 1, 1, 1, 1])
    ∧ ([Value.null] : List Value).length = ([0] : List Nat).length :=
  ⟨record_reads_exactly_five.1 [2, 3, 4, 5, 6] [2, 3, 4, 5, 6] [] (by decide),
   record_reads_exactly_five.2.1 0 9 [1, 1, 1, 1, 1] (by decide) (by decide),
   record_reads_exactly_five.2.2 [0] [] [Value.null] [] (by decide) (by decide)⟩

/-- C6 counterexample: the same table is found under its exact name but
*not* when the requested name carries surrounding whitespace — the code
strips the stored `tbl_name` but never strips the query — so the result
is not independent of surrounding whitespace in the requested name. -/
theorem find_table_query_whitespace_counterexample :
    find_table_metadata fileF (strBytes "apples") = .ok (Value.int 2, Value.bytes sqlApples)
    ∧ find_table_metadata fileF (strBytes " apples ") = .error .tableNotFound := by
  constructor <;> decide

/-- C6 amended: matching is case-insensitive in the requested name (the
lookup is invariant under lower-casing the query, and the upper-case
query "APPLES" finds the table); the *stored* `tbl_name` is trimmed
before comparison (the stored name " Apples " is found by the query
"apples"); and when no schema row matches the scan ends in
TableNotFound.  Surrounding whitespace on the requested name is not
trimmed (see the counterexample). -/
theorem find_table_matching_amended :
    (∀ (file q : List Nat), find_table_metadata file (asciiLower q) = find_table_metadata file q)
    ∧ find_table_metadata fileF (strBytes "APPLES") = .ok (Value.int 2, Value.bytes sqlApples)
    ∧ find_table_metadata fileF2 (strBytes "apples") = .ok (Value.int 2, Value.bytes sqlT)
    ∧ find_table_metadata fileF (strBytes "bananas") = .error .tableNotFound := by
  exact ⟨find_table_metadata_lower, by decide⟩

/-- C7: `find_column_index` on "CREATE TABLE t (id integer, name text)"
returns 0 for "id", 1 for "name", ColumnNotFound for "missing", and —
the comparison being case-sensitive — ColumnNotFound for "Name" too. -/
theorem find_column_index_eval :
    find_column_index (strBytes "CREATE TABLE t (id integer, name text)") (strBytes "id") = .ok 0
    ∧ find_column_index (strBytes "CREATE TABLE t (id integer, name text)") (strBytes "name") = .ok 1
    ∧ find_column_index (strBytes "CREATE TABLE t (id integer, name text)") (strBytes "missing")
        = .error .columnNotFound
    ∧ find_column_index (strBytes "CREATE TABLE t (id integer, name text)") (strBytes "Name")
        = .error .columnNotFound := by
  decide

/-- C9 counterexample: the three catalog scans are not equivalent.  On
`fileF` (whose single schema cell sits at absolute offset 130 = 100 +
pointer 30), `find_table_metadata` — which seeks to 100 + pointer —
decodes the schema row and returns the root page, while
`find_table_rootpage` and the `.tables` scan — which seek to the raw
pointer 30 — decode an all-NULL record from the wrong offset and raise
`AttributeError` on `None.decode`. -/
theorem schema_scan_inequivalence_counterexample :
    find_table_metadata fileF (strBytes "apples") = .ok (Value.int 2, Value.bytes sqlApples)
    ∧ find_table_rootpage fileF (strBytes "apples") = .error .attributeError
    ∧ listTables fileF = .error .attributeError := by
  decide

/-- C9 amended: the scans disagree in general because their cell
offsets differ by exactly the 100-byte file header; they agree only on
files where the bytes at pointer and at 100 + pointer hold matching
schema cells.  On `fileG`, which duplicates its schema cell at both
offsets, all three scans succeed and agree on the root page and the
table list. -/
theorem schema_scan_agreement_duplicated :
    find_table_metadata fileG (strBytes "t") = .ok (Value.int 2, Value.bytes sqlT)
    ∧ find_table_rootpage fileG (strBytes "t") = .ok (Value.int 2)
    ∧ listTables fileG = .ok [strBytes "t"] := by
  decide

/-- C10: a row whose record is shorter than the projection column index
is silently omitted, whatever the predicate (first conjunct, with no
exception raised — `rowStep` is total); a row whose record is shorter
than the predicate column index is treated exactly as if no predicate
were present, i.e. it passes the filter (second conjunct); and
end-to-end, selecting column index 7 from scenario file `fileF` (whose
records have 5 values) yields the empty result with no error. -/
theorem short_record_row_safety :
    (∀ (record : List Value) (ci : Nat) (w : Option (Nat × List Nat)),
        record.length ≤ ci → rowStep record ci w = none)
    ∧ (∀ (record : List Value) (ci wi : Nat) (wv : List Nat),
        record.length ≤ wi → rowStep record ci (some (wi, wv)) = rowStep record ci none)
    ∧ extract_column_values fileF 2 7 none (strBytes "apples") = .ok [] := by
  refine ⟨rowStep_short_none, rowStep_short_pred, by decide⟩

/-- C10 witness: the theorem instantiated on concrete inputs. -/
theorem short_record_row_safety_witness :
    rowStep [Value.null] 3 none = none
    ∧ rowStep [Value.null] 0 (some (5, [50])) = rowStep [Value.null] 0 none :=
  ⟨short_record_row_safety.1 [Value.null] 3 none (by decide),
   short_record_row_safety.2.1 [Value.null] 0 5 [50] (by decide)⟩

/-- C1: the SELECT dispatcher does not filter.  On scenario B's file,
`Select(column="name", table="apples", predicate=(id,"2"))` returns the
names of *all three* rows — the dispatcher parses the WHERE clause but
calls `extract_column_values` without passing it — whereas the claim
requires only the row whose id is "2".  Moreover even the unused
filtering path inside `extract_column_values` would not implement the
claim: the decoded values are Python bytes/int/None and never equal the
`str` literal, so with the predicate passed explicitly every row is
skipped and the result is empty rather than the matching row. -/
theorem select_predicate_dropped_eval :
    selectCommand fileF (strBytes "name") (strBytes "apples") (some (strBytes "id = '2'"))
      = .ok [Value.bytes (strBytes "x"), Value.bytes (strBytes "y"), Value.bytes (strBytes "z")]
    ∧ extract_column_values fileF 2 1 (some (strBytes "id = '2'")) (strBytes "apples") = .ok [] := by
  constructor <;> decide
